import Mathlib

/-!
Shallow embedding of the txsoundgen caching and pack-assembly pipeline
(src/txsoundgen/utils.py and src/txsoundgen/model.py), together with proofs
about the embedded operations.

Conventions used throughout:
- Python dicts with string keys and string values are modelled as association
  lists (`Dict`); lookup takes the first entry with a matching key, which
  agrees with Python dicts (whose keys are unique).
- Python `bytes` values are modelled as `List Nat`.
- Python exceptions raised by the peewee database layer are modelled by the
  `PeeweeError` type; a fallible operation returns `Except PeeweeError _`.
- Character-level operations (`str.lower`, `str.upper`) are modelled on the
  ASCII range, which is exact for every character the sanitizer can keep.
-/

namespace Txsoundgen

/-- Byte strings (Python `bytes`) are modelled as lists of naturals. -/
abbrev Bytes := List Nat

/-- Python string-to-string dict, modelled as an association list. -/
abbrev Dict := List (String × String)

/-- Dict lookup: returns the value of the first entry whose key matches. -/
def dictGet? (d : Dict) (k : String) : Option String :=
  (d.find? (fun p => p.1 == k)).map (fun p => p.2)

/-- Python `d[k]` on a dict that is known to contain `k`.  `merge_config`
always supplies every default key, so the `""` fallback is unreachable at
the call sites in the model. -/
def cfgGet (d : Dict) (k : String) : String :=
  (dictGet? d k).getD ""

/-- Python `{**a, **b}`: the keys of `a` in order (values overridden by `b`
where present), followed by the keys of `b` that are absent from `a`. -/
def dictMerge (a b : Dict) : Dict :=
  (a.map (fun p => (p.1, (dictGet? b p.1).getD p.2)))
    ++ b.filter (fun p => (dictGet? a p.1).isNone)

/-- `txsoundgen.utils.default_config` (src/txsoundgen/utils.py). -/
def default_config : Dict :=
  [("language", "en-GB"), ("voice", "Amy"), ("engine", "standard"),
   ("extension", "wav"), ("name", "default")]

/-- `txsoundgen.utils.merge_config` (src/txsoundgen/utils.py): a falsy
argument (`None` or the empty dict) is replaced by `{}`, then merged under
the defaults with `{**default_config, **config}`. -/
def merge_config (config : Option Dict) : Dict :=
  let c := match config with
    | none => ([] : Dict)
    | some c => if c.isEmpty then [] else c
  dictMerge default_config c

/-- Characters kept by the sanitizer regex `[^a-z0-9_-]+` in
`Pack._format_filename` (src/txsoundgen/model.py line 234). -/
def allowedChar (c : Char) : Bool :=
  (('a' ≤ c && c ≤ 'z') || ('0' ≤ c && c ≤ '9') || c == '_' || c == '-')

/-- `Pack._format_filename` (src/txsoundgen/model.py lines 220-240), without
the warning log: `name.lower()` lowercases character-wise (ASCII-modelled;
any character it could affect beyond ASCII is deleted by the filter anyway),
`pattern.sub("", ...)` with pattern `[^a-z0-9_-]+` deletes every disallowed
character (replacing each maximal run with the empty string), and the slice
`[0:safe_length]` truncates.  The Python parameter defaults to 6; call sites
in this file pass the length explicitly. -/
def format_filename (name : String) (safe_length : Nat) : String :=
  String.mk (((name.toList.map Char.toLower).filter allowedChar).take safe_length)

/-- The character set named by the spec: ASCII lowercase letters, digits,
underscore, hyphen — written via code points. -/
def specAllowed (c : Char) : Bool :=
  (97 ≤ c.toNat && c.toNat ≤ 122) || (48 ≤ c.toNat && c.toNat ≤ 57)
    || c.toNat == 95 || c.toNat == 45

/-- The sanitizer as the spec words it (section 4.2): lower-case the input,
remove every character not in `[a-z0-9_-]`, truncate to `max_length`. -/
def sanitizeSpec (s : String) (max_length : Nat) : String :=
  String.mk (((s.toList.map Char.toLower).filter specAllowed).take max_length)

/-- String suffix test at the character-list level (used instead of
`String.endsWith` so that proofs and kernel evaluation stay list-based). -/
def endsWithL (s p : String) : Bool :=
  List.isSuffixOf p.toList s.toList

/-- String prefix test at the character-list level. -/
def startsWithL (s p : String) : Bool :=
  List.isPrefixOf p.toList s.toList

/-- The path normalization `re.sub(r"(?<!\.wav)$", r".wav", file)` in
`Sound.process` (src/txsoundgen/model.py lines 174-177).  In Python, `$`
(without MULTILINE) matches at the end of the string and, when the string
ends with a newline, also just before that final newline; the negative
lookbehind `(?<!\.wav)` is evaluated against the original string at each
match position, and `re.sub` inserts `.wav` at every position where the
pattern matches.  At the true end of a newline-terminated string the last
four characters include the newline, so the lookbehind always lets that
match through. -/
def ensure_wav (s : String) : String :=
  if endsWithL s "\n" then
    let t := String.mk s.toList.dropLast
    (if endsWithL t ".wav" then t else t ++ ".wav") ++ "\n" ++ ".wav"
  else
    if endsWithL s ".wav" then s else s ++ ".wav"

/-- Errors raised by the peewee layer that are reachable from the modelled
operations: `peewee.DoesNotExist` (no matching row for a `get`),
`peewee.InterfaceError` (database not initialised), and
`peewee.IntegrityError` (UNIQUE constraint violated on insert).
`IntegrityError` and `InterfaceError` are unrelated classes in peewee
(PEP 249 hierarchy), so an `except peewee.InterfaceError` clause does not
catch an `IntegrityError`. -/
inductive PeeweeError where
  | doesNotExist
  | interfaceError
  | integrityError
deriving Repr, DecidableEq

/-- A row of the `sound` table backing `CachedSound` (src/txsoundgen/model.py
lines 35-75): five text columns and the blob column `data`, the blob being
declared `unique=True`. -/
structure CacheEntry where
  engine : String
  language : String
  voice : String
  service : String
  phrase : String
  data : Bytes
deriving Repr, DecidableEq

/-- The module-level `db = peewee.SqliteDatabase(None)`: `none` models the
uninitialised / disconnected database, `some rows` an initialised store. -/
abbrev DB := Option (List CacheEntry)

namespace CachedSound

/-- `CachedSound.get(engine=..., language=..., voice=..., service=...,
phrase=...)`: raises `InterfaceError` when the database is uninitialised,
returns the first row matching all five fields, or raises `DoesNotExist`. -/
def get (db : DB) (engine language voice service phrase : String) :
    Except PeeweeError CacheEntry :=
  match db with
  | none => .error .interfaceError
  | some rows =>
    match rows.find? (fun e =>
        e.engine == engine && e.language == language && e.voice == voice
          && e.service == service && e.phrase == phrase) with
    | some e => .ok e
    | none => .error .doesNotExist

/-- `CachedSound.create(...)`: raises `InterfaceError` when the database is
uninitialised; raises `IntegrityError` when the UNIQUE constraint on the
`data` blob is violated (some existing row holds the same bytes); otherwise
inserts the row. -/
def create (db : DB) (e : CacheEntry) : Except PeeweeError (List CacheEntry) :=
  match db with
  | none => .error .interfaceError
  | some rows =>
    if rows.any (fun x => x.data == e.data) then .error .integrityError
    else .ok (rows ++ [e])

end CachedSound

/-- One synthesis-backend invocation, as the backend capability of the spec
`synthesize(phrase, voice, language, engine)` (spec section 6). -/
structure SynthCall where
  phrase : String
  voice : String
  language : String
  engine : String
deriving Repr, DecidableEq

/-- Modelled from the spec: `txsoundgen.audio.polly_process` is called by
`Sound.render` (src/txsoundgen/model.py line 123) with the arguments
`(client, self.phrase)` only, but the function itself is absent from the
repository sources (src/txsoundgen/audio.py no longer defines it).  The spec
treats the backend as a capability `synthesize(text, voice, language,
engine) -> raw PCM bytes` (sections 1 and 6), with the Polly provider
defaulting `voice="Amy"`, `language="en-GB"`, `engine="standard"` when the
caller supplies none (provider defaults in src/txsoundgen/providers.py).
So `polly_process(client, phrase)` issues exactly one synthesis call
carrying the phrase and those provider defaults; the client capability is
modelled as a function from the call to the produced bytes.  The function
returns the bytes together with the call it made. -/
def polly_process (synth : SynthCall → Bytes) (phrase : String) :
    Bytes × SynthCall :=
  let call : SynthCall :=
    { phrase := phrase, voice := "Amy", language := "en-GB", engine := "standard" }
  (synth call, call)

/-- `txsoundgen.model.Sound` object state (src/txsoundgen/model.py
lines 78-111). -/
structure Sound where
  config : Dict
  phrase : String
  service : String
  data : Option Bytes
deriving Repr, DecidableEq

namespace Sound

/-- `Sound.__init__(phrase, config=None)` (src/txsoundgen/model.py
lines 98-111). -/
def init (phrase : String) (config : Option Dict) : Sound :=
  { config := merge_config config, phrase := phrase,
    service := "Polly", data := none }

/-- `Sound.render(client)` (src/txsoundgen/model.py lines 116-124): calls
`txsoundgen.audio.polly_process(client, self.phrase)`, assigns the result to
`self.data` and returns it.  The result also carries the list of backend
invocations the call performed. -/
def render (s : Sound) (synth : SynthCall → Bytes) :
    Sound × Bytes × List SynthCall :=
  let r := polly_process synth s.phrase
  ({ s with data := some r.1 }, r.1, [r.2])

/-- The `CachedSound.get` call issued by `Sound.check_cache`
(src/txsoundgen/model.py lines 138-145), with the five key fields drawn
from the merged config of the Sound, its `service` field and its phrase (the
f-string `f"{self.phrase}"` is the phrase itself for a string phrase). -/
def cacheLookup (s : Sound) (db : DB) : Except PeeweeError CacheEntry :=
  CachedSound.get db (cfgGet s.config "engine") (cfgGet s.config "language")
    (cfgGet s.config "voice") s.service s.phrase

/-- `Sound.check_cache()` (src/txsoundgen/model.py lines 126-151): on a
successful `get`, sets `self.data` from the cached row and returns `True`;
the `except (peewee.DoesNotExist, peewee.InterfaceError)` clause turns both
reachable errors into `False`, leaving the object unchanged. -/
def check_cache (s : Sound) (db : DB) : Bool × Sound :=
  match s.cacheLookup db with
  | .ok e => (true, { s with data := some e.data })
  | .error _ => (false, s)

/-- The row `Sound.process` inserts on a cache miss (src/txsoundgen/model.py
lines 184-191). -/
def cacheRow (s : Sound) (d : Bytes) : CacheEntry :=
  { engine := cfgGet s.config "engine", language := cfgGet s.config "language",
    voice := cfgGet s.config "voice", service := s.service,
    phrase := s.phrase, data := d }

instance {ε α : Type} [DecidableEq ε] [DecidableEq α] :
    DecidableEq (Except ε α) := fun x y =>
  match x, y with
  | .error a, .error b => decidable_of_iff (a = b) (by simp)
  | .ok a, .ok b => decidable_of_iff (a = b) (by simp)
  | .error _, .ok _ => isFalse (by simp)
  | .ok _, .error _ => isFalse (by simp)

/-- Everything observable about one `Sound.process` run: the returned path
(or the uncaught exception), the final object state, the final database
state, the backend invocations made, the `(path, bytes)` pairs written by
`txsoundgen.audio.wave_write`, and the messages logged at warning level. -/
structure ProcResult where
  result : Except PeeweeError String
  sound : Sound
  db : DB
  calls : List SynthCall
  writes : List (String × Bytes)
  warnings : List String
deriving Repr, DecidableEq

/-- `Sound.process(client, file)` (src/txsoundgen/model.py lines 153-199)
for a plain string `file` argument: normalise the path with
`re.sub(r"(?<!\.wav)$", ".wav", file)`; on a cache hit use the cached data;
on a miss render via the backend and attempt `CachedSound.create`, where
only `peewee.InterfaceError` is caught (logged at warning level) — an
`IntegrityError` propagates out before `wave_write` runs; finally write the
in-memory data to the normalised path and return it. -/
def process (s : Sound) (db : DB) (synth : SynthCall → Bytes)
    (file : String) : ProcResult :=
  let f := ensure_wav file
  match s.check_cache db with
  | (true, s1) =>
      { result := .ok f, sound := s1, db := db, calls := [],
        writes := [(f, s1.data.getD [])], warnings := [] }
  | (false, s0) =>
      let r := s0.render synth
      match CachedSound.create db (s0.cacheRow r.2.1) with
      | .ok rows =>
          { result := .ok f, sound := r.1, db := some rows, calls := r.2.2,
            writes := [(f, r.2.1)], warnings := [] }
      | .error .interfaceError =>
          { result := .ok f, sound := r.1, db := db, calls := r.2.2,
            writes := [(f, r.2.1)],
            warnings := ["Unable to cache audio data"] }
      | .error e =>
          { result := .error e, sound := r.1, db := db, calls := r.2.2,
            writes := [], warnings := [] }

end Sound

/-- Python dict assignment `d[k] = v` on an association list: replace the
value of an existing key in place, otherwise append a new entry. -/
def dictSet {α : Type} (d : List (String × α)) (k : String) (v : α) :
    List (String × α) :=
  match d with
  | [] => [(k, v)]
  | (k1, v1) :: rest =>
      if k1 = k then (k, v) :: rest else (k1, v1) :: dictSet rest k v

/-- Python `str.upper()`, ASCII-modelled (the only use is on the literal
key `"system"`). -/
def pyUpper (s : String) : String :=
  String.mk (s.toList.map Char.toUpper)

/-- Scanner for `re.sub(r"(?:-.*)", "", language)` on the raw character
list (src/txsoundgen/model.py lines 214-216).  `.` does not match a
newline, so each hyphen together with the run of non-newline characters
after it is deleted, scanning left to right; the flag is `true` while
inside such a `-.*` match (consuming non-newline characters). -/
def stripRegionGo : Bool → List Char → List Char
  | _, [] => []
  | true, c :: rest =>
      if c = '\n' then c :: stripRegionGo false rest
      else stripRegionGo true rest
  | false, c :: rest =>
      if c = '-' then stripRegionGo true rest
      else c :: stripRegionGo false rest

/-- The full substitution starts outside any match. -/
def stripRegionAux (l : List Char) : List Char :=
  stripRegionGo false l

/-- The language-localisation strip in `Pack.__init__`. -/
def strip_language (language : String) : String :=
  String.mk (stripRegionAux language.toList)

/-- `os.path.join(a, b)` on POSIX for one extra component: an absolute
component resets the path; otherwise a separator is inserted unless the
accumulated path is empty or already ends with one. -/
def posix_join2 (a b : String) : String :=
  if startsWithL b "/" then b
  else if a = "" || endsWithL a "/" then a ++ b
  else a ++ "/" ++ b

namespace Pack

/-- `Pack._convert_list(sound_list)` (src/txsoundgen/model.py
lines 242-262): builds a dict of dicts; a bucket key equal (case-sensitively)
to `"system"` is replaced by its uppercase form; each sound name is passed
through `_format_filename` (default length 6) and mapped to a `Sound`
constructed from the phrase and the merged pack config. -/
def convert_list (config : Dict)
    (sound_list : List (String × List (String × String))) :
    List (String × List (String × Sound)) :=
  sound_list.foldl (fun output gc =>
    let group := if gc.1 = "system" then pyUpper gc.1 else gc.1
    let content_list := gc.2.foldl (fun cl np =>
      dictSet cl (format_filename np.1 6) (Sound.init np.2 (some config))) []
    dictSet output group content_list) []

end Pack

/-- `txsoundgen.model.Pack` object state (src/txsoundgen/model.py
lines 202-218), without the boto3 client. -/
structure Pack where
  config : Dict
  name : String
  list : List (String × List (String × Sound))
  path : String
  packpath : String
deriving Repr

/-- `Pack.__init__(config=None)` (src/txsoundgen/model.py lines 207-218).
In Python the nested phrase map travels inside the config dict under the
`"sounds"` key (which `merge_config` passes through untouched and
`self.config.get("sounds", {})` retrieves); since `Dict` is string-valued,
the nested map is modelled as the separate argument `sounds`. -/
def Pack.init (conf : Option Dict)
    (sounds : List (String × List (String × String))) : Pack :=
  let config := merge_config conf
  let name := format_filename (cfgGet config "name") 32
  let lang := strip_language (cfgGet config "language")
  let path := posix_join2 "voicepacks" name
  let packpath :=
    posix_join2 (posix_join2 (posix_join2 path "SOUNDS") "language") lang
  { config := config, name := name,
    list := Pack.convert_list config sounds,
    path := path, packpath := packpath }

/-! ## Helper lemmas -/

theorem char_le_iff_toNat (a c : Char) : (a ≤ c) ↔ (a.toNat ≤ c.toNat) := by
  simp [Char.le_def, UInt32.le_def, BitVec.le_def, Char.toNat, UInt32.toNat]

theorem char_eq_of_toNat {c d : Char} (h : c.toNat = d.toNat) : c = d :=
  Char.ext (congrArg UInt32.mk (BitVec.eq_of_toNat_eq h))

/-- The sanitizer regex charset and the charset named by the spec agree on
every character. -/
theorem allowedChar_eq_specAllowed (c : Char) : allowedChar c = specAllowed c := by
  have e5 : (c = '_') ↔ (c.toNat = 95) :=
    ⟨fun h => by subst h; rfl, fun h => char_eq_of_toNat h⟩
  have e6 : (c = '-') ↔ (c.toNat = 45) :=
    ⟨fun h => by subst h; rfl, fun h => char_eq_of_toNat h⟩
  rw [Bool.eq_iff_iff]
  simp only [allowedChar, specAllowed, Bool.or_eq_true, Bool.and_eq_true,
    decide_eq_true_eq, beq_iff_eq]
  rw [char_le_iff_toNat 'a' c, char_le_iff_toNat c 'z', char_le_iff_toNat '0' c,
    char_le_iff_toNat c '9', e5, e6]
  have a97 : Char.toNat 'a' = 97 := by decide
  have z122 : Char.toNat 'z' = 122 := by decide
  have d48 : Char.toNat '0' = 48 := by decide
  have n57 : Char.toNat '9' = 57 := by decide
  rw [a97, z122, d48, n57]

/-- Characters kept by the sanitizer are fixed points of `Char.toLower`
(their code points lie outside the uppercase ASCII range). -/
theorem toLower_of_allowed (c : Char) (h : allowedChar c = true) :
    c.toLower = c := by
  rw [allowedChar_eq_specAllowed] at h
  simp only [specAllowed, Bool.or_eq_true, Bool.and_eq_true, decide_eq_true_eq,
    beq_iff_eq] at h
  unfold Char.toLower
  have hn : ¬ (c.toNat ≥ 65 ∧ c.toNat ≤ 90) := by omega
  simp [hn]

/-- Every character of a sanitized name is in the allowed set. -/
theorem mem_format_filename_allowed (s : String) (n : Nat) (c : Char)
    (hc : c ∈ (format_filename s n).toList) : allowedChar c = true := by
  have hc2 : c ∈ ((s.toList.map Char.toLower).filter allowedChar).take n := hc
  exact List.of_mem_filter (List.mem_of_mem_take hc2)

theorem find?_key_map_merge (b a : Dict) (k : String) :
    (a.map (fun p => (p.1, (dictGet? b p.1).getD p.2))).find? (fun p => p.1 == k)
      = (a.find? (fun p => p.1 == k)).map
          (fun p => (p.1, (dictGet? b p.1).getD p.2)) := by
  rw [List.find?_map]
  rfl

theorem find?_key_filter (a b : Dict) (k : String) (h : dictGet? a k = none) :
    (b.filter (fun p => (dictGet? a p.1).isNone)).find? (fun p => p.1 == k)
      = b.find? (fun p => p.1 == k) := by
  rw [List.find?_filter]
  congr 1
  funext x
  by_cases hx : x.1 = k
  · subst hx
    simp [h]
  · simp [hx]

/-- Lookup in `{**a, **b}` for a key present in `b` yields the `b` value. -/
theorem dictGet?_dictMerge_right (a b : Dict) (k : String)
    (hb : (dictGet? b k).isSome = true) :
    dictGet? (dictMerge a b) k = dictGet? b k := by
  obtain ⟨w, hw⟩ := Option.isSome_iff_exists.mp hb
  show ((dictMerge a b).find? (fun p => p.1 == k)).map (fun p => p.2) = _
  unfold dictMerge
  rw [List.find?_append, find?_key_map_merge]
  cases ha : a.find? (fun p => p.1 == k) with
  | some q =>
      have hq : q.1 = k := by simpa using List.find?_some ha
      simp [hq, hw]
  | none =>
      have ha2 : dictGet? a k = none := by simp [dictGet?, ha]
      rw [find?_key_filter a b k ha2]
      simp [dictGet?]

/-- Lookup in `{**a, **b}` for a key absent from `b` yields the `a` lookup. -/
theorem dictGet?_dictMerge_left (a b : Dict) (k : String)
    (hb : dictGet? b k = none) :
    dictGet? (dictMerge a b) k = dictGet? a k := by
  have hb2 : b.find? (fun p => p.1 == k) = none := by
    simpa [dictGet?] using hb
  show ((dictMerge a b).find? (fun p => p.1 == k)).map (fun p => p.2) = _
  unfold dictMerge
  rw [List.find?_append, find?_key_map_merge]
  cases ha : a.find? (fun p => p.1 == k) with
  | some q =>
      have hq : q.1 = k := by simpa using List.find?_some ha
      simp [dictGet?, ha, hq, hb2]
  | none =>
      have ha2 : dictGet? a k = none := by simp [dictGet?, ha]
      rw [find?_key_filter a b k ha2]
      simp [dictGet?, ha, hb2]

/-! ## Claim theorems -/

/-- C4: `merge_config` of `None` and of the empty dict both return exactly
the default configuration; for every override dict, each key present in the
override maps to the override value, and every default key absent from the
override maps to its default value. -/
theorem claim4_merge_config :
    merge_config none = default_config
      ∧ merge_config (some []) = default_config
      ∧ (∀ (cfg : Dict) (k : String), (dictGet? cfg k).isSome = true →
          dictGet? (merge_config (some cfg)) k = dictGet? cfg k)
      ∧ (∀ (cfg : Dict) (k : String), (dictGet? default_config k).isSome = true →
          dictGet? cfg k = none →
          dictGet? (merge_config (some cfg)) k = dictGet? default_config k) := by
  refine ⟨by decide, by decide, ?_, ?_⟩
  · intro cfg k hk
    match cfg with
    | [] => simp [dictGet?] at hk
    | c :: cs =>
        show dictGet? (dictMerge default_config (c :: cs)) k = _
        exact dictGet?_dictMerge_right _ _ _ hk
  · intro cfg k hk hnone
    match cfg with
    | [] =>
        show dictGet? (dictMerge default_config []) k = _
        have h0 : dictMerge default_config [] = default_config := by decide
        rw [h0]
    | c :: cs =>
        show dictGet? (dictMerge default_config (c :: cs)) k = _
        exact dictGet?_dictMerge_left _ _ _ hnone

/-- Witness for C4: the override `{"language": "en-US"}` wins for its own
key and leaves the default `voice`. -/
theorem claim4_witness :
    dictGet? (merge_config (some [("language", "en-US")])) "language"
        = dictGet? [("language", "en-US")] "language"
      ∧ dictGet? (merge_config (some [("language", "en-US")])) "voice"
        = dictGet? default_config "voice" :=
  ⟨claim4_merge_config.2.2.1 [("language", "en-US")] "language" (by decide),
   claim4_merge_config.2.2.2 [("language", "en-US")] "voice" (by decide) (by decide)⟩

/-- C5: for every string and max length, the implemented sanitizer
`Pack._format_filename` equals the reference definition from the spec
(lower-case, delete characters outside `[a-z0-9_-]`, truncate), and the four
quoted examples evaluate as stated. -/
theorem claim5_sanitize :
    (∀ (s : String) (n : Nat), format_filename s n = sanitizeSpec s n)
      ∧ format_filename "toolong" 6 = "toolon"
      ∧ format_filename "@weirdchar" 6 = "weirdc"
      ∧ format_filename "filext.wav" 6 = "filext"
      ∧ format_filename "spa ce" 6 = "space" := by
  refine ⟨fun s n => ?_, by decide, by decide, by decide, by decide⟩
  unfold format_filename sanitizeSpec
  rw [funext allowedChar_eq_specAllowed]

/-- C6: the sanitizer (at its default maximum length 6) is idempotent. -/
theorem claim6_sanitize_idempotent (s : String) :
    format_filename (format_filename s 6) 6 = format_filename s 6 := by
  have hmem : ∀ c ∈ (format_filename s 6).toList, allowedChar c = true :=
    mem_format_filename_allowed s 6
  show String.mk _ = _
  unfold format_filename
  have h1 : (format_filename s 6).toList.map Char.toLower
      = (format_filename s 6).toList := by
    rw [List.map_congr_left (fun c hc => toLower_of_allowed c (hmem c hc))]
    exact List.map_id _
  have h2 : (format_filename s 6).toList.filter allowedChar
      = (format_filename s 6).toList :=
    List.filter_eq_self.mpr hmem
  have h3 : (format_filename s 6).toList.take 6 = (format_filename s 6).toList := by
    show (((s.toList.map Char.toLower).filter allowedChar).take 6).take 6 = _
    rw [List.take_take]
    norm_num
    rfl
  show String.mk ((((format_filename s 6).toList.map Char.toLower).filter
      allowedChar).take 6) = format_filename s 6
  rw [h1, h2, h3]
  rfl

/-- `check_cache` never changes the `service` field. -/
theorem check_cache_snd_service (s : Sound) (db : DB) :
    ((s.check_cache db).2).service = s.service := by
  cases hl : s.cacheLookup db with
  | ok e => simp [Sound.check_cache, hl]
  | error err => simp [Sound.check_cache, hl]

/-- `process` never changes the `service` field. -/
theorem process_sound_service (s : Sound) (db : DB) (synth : SynthCall → Bytes)
    (file : String) : ((s.process db synth file).sound).service = s.service := by
  have hcc := check_cache_snd_service s db
  cases hl : s.check_cache db with
  | mk b s1 =>
      rw [hl] at hcc
      simp only [] at hcc
      cases b
      · cases hcr : CachedSound.create db (s1.cacheRow ((s1.render synth).2.1)) with
        | ok rows =>
            simp [Sound.process, hl, Sound.render, polly_process] at hcr ⊢
            simp [hcr, hcc]
        | error err =>
            cases err <;>
              · simp [Sound.process, hl, Sound.render, polly_process] at hcr ⊢
                simp [hcr, hcc]
      · simp [Sound.process, hl, hcc]

/-- Any row present in the database after a `process` call was either already
present or carries the `service` value of the processing Sound. -/
theorem process_db_rows (s : Sound) (db : DB) (synth : SynthCall → Bytes)
    (file : String) (rows : List CacheEntry) (e : CacheEntry)
    (hdb : (s.process db synth file).db = some rows) (he : e ∈ rows) :
    (∃ l, db = some l ∧ e ∈ l) ∨ e.service = s.service := by
  have hcc := check_cache_snd_service s db
  cases hl : s.check_cache db with
  | mk b s1 =>
      rw [hl] at hcc
      simp only [] at hcc
      cases b
      · cases hcr : CachedSound.create db (s1.cacheRow (synth
            { phrase := s1.phrase, voice := "Amy", language := "en-GB",
              engine := "standard" })) with
        | ok rows2 =>
            cases db with
            | none => simp [CachedSound.create] at hcr
            | some l =>
                have hr2 : rows2 = l ++ [s1.cacheRow (synth
                    { phrase := s1.phrase, voice := "Amy", language := "en-GB",
                      engine := "standard" })] := by
                  by_cases hdup : (l.any (fun x =>
                      x.data == (s1.cacheRow (synth
                        { phrase := s1.phrase, voice := "Amy",
                          language := "en-GB",
                          engine := "standard" })).data)) = true
                  · simp [CachedSound.create, hdup] at hcr
                  · simp [CachedSound.create, hdup] at hcr
                    exact hcr.symm
                have hrows : rows = rows2 := by
                  simp [Sound.process, hl, Sound.render, polly_process, hcr] at hdb
                  exact hdb.symm
                subst hrows
                rw [hr2] at he
                rcases List.mem_append.mp he with hmem | hmem
                · exact Or.inl ⟨l, rfl, hmem⟩
                · right
                  have : e = s1.cacheRow (synth
                      { phrase := s1.phrase, voice := "Amy",
                        language := "en-GB", engine := "standard" }) := by
                    simpa using hmem
                  rw [this]
                  show s1.service = s.service
                  exact hcc
        | error err =>
            left
            have hdbeq : (s.process db synth file).db = db := by
              cases err <;>
                simp [Sound.process, hl, Sound.render, polly_process, hcr]
            rw [hdbeq] at hdb
            exact ⟨rows, hdb, he⟩
      · left
        have hdbeq : (s.process db synth file).db = db := by
          simp [Sound.process, hl]
        rw [hdbeq] at hdb
        exact ⟨rows, hdb, he⟩

/-- C9: with no backing store configured, every cache check reports a miss
and leaves the Sound unchanged, and every `process` call invokes the
synthesis backend exactly once. -/
theorem claim9_cache_disabled :
    (∀ s : Sound, s.check_cache none = (false, s))
      ∧ (∀ (s : Sound) (synth : SynthCall → Bytes) (file : String),
          ((s.process none synth file).calls).length = 1) :=
  ⟨fun _ => rfl, fun _ _ _ => rfl⟩

/-- C10: every constructed Sound has `service = "Polly"` whatever its
configuration; `render`, `check_cache` and `process` preserve the field; the
cache lookup key uses the field; and every row a `process` call adds to the
store carries `service = "Polly"`. -/
theorem claim10_service_polly :
    (∀ (phrase : String) (cfg : Option Dict),
        (Sound.init phrase cfg).service = "Polly")
      ∧ (∀ (s : Sound) (synth : SynthCall → Bytes),
          ((s.render synth).1).service = s.service)
      ∧ (∀ (s : Sound) (db : DB), ((s.check_cache db).2).service = s.service)
      ∧ (∀ (s : Sound) (db : DB) (synth : SynthCall → Bytes) (file : String),
          ((s.process db synth file).sound).service = s.service)
      ∧ (∀ (phrase : String) (cfg : Option Dict) (db : DB),
          (Sound.init phrase cfg).cacheLookup db
            = CachedSound.get db (cfgGet (merge_config cfg) "engine")
                (cfgGet (merge_config cfg) "language")
                (cfgGet (merge_config cfg) "voice") "Polly" phrase)
      ∧ (∀ (phrase : String) (cfg : Option Dict) (db : DB)
          (synth : SynthCall → Bytes) (file : String) (rows : List CacheEntry)
          (e : CacheEntry),
          ((Sound.init phrase cfg).process db synth file).db = some rows →
          e ∈ rows → (∃ l, db = some l ∧ e ∈ l) ∨ e.service = "Polly") :=
  ⟨fun _ _ => rfl, fun _ _ => rfl, check_cache_snd_service,
   process_sound_service, fun _ _ _ => rfl,
   fun phrase cfg db synth file rows e hdb he =>
     process_db_rows (Sound.init phrase cfg) db synth file rows e hdb he⟩

/-- Witness for C10: processing a fresh phrase against an empty store adds
exactly one row, and it carries `service = "Polly"`. -/
theorem claim10_witness :
    (∃ l, (some ([] : List CacheEntry)) = some l
        ∧ ({ engine := "standard", language := "en-GB", voice := "Amy",
             service := "Polly", phrase := "hi", data := [0] } : CacheEntry) ∈ l)
      ∨ ({ engine := "standard", language := "en-GB", voice := "Amy",
           service := "Polly", phrase := "hi", data := [0] } : CacheEntry).service
          = "Polly" :=
  claim10_service_polly.2.2.2.2.2 "hi" none (some []) (fun _ => [0]) "f"
    [{ engine := "standard", language := "en-GB", voice := "Amy",
       service := "Polly", phrase := "hi", data := [0] }]
    { engine := "standard", language := "en-GB", voice := "Amy",
      service := "Polly", phrase := "hi", data := [0] }
    (by decide) (by decide)

/-- C3 (code evaluation at the failing input): a Sound constructed with a
voice override carries that voice in its merged config, yet `render` issues
exactly one backend call whose voice is the provider default `"Amy"`, not
the configured `"Brian"`; the returned bytes are assigned to `data` and
returned. -/
theorem claim3_render_ignores_config :
    cfgGet (Sound.init "hello" (some [("voice", "Brian")])).config "voice" = "Brian"
      ∧ ((Sound.init "hello" (some [("voice", "Brian")])).render
            (fun _ => [7, 7])).2.2
          = [{ phrase := "hello", voice := "Amy", language := "en-GB",
               engine := "standard" }]
      ∧ (((Sound.init "hello" (some [("voice", "Brian")])).render
            (fun _ => [7, 7])).1).data = some [7, 7]
      ∧ ((Sound.init "hello" (some [("voice", "Brian")])).render
            (fun _ => [7, 7])).2.1 = [7, 7]
      ∧ ((((Sound.init "hello" (some [("voice", "Brian")])).render
            (fun _ => [7, 7])).2.2).map SynthCall.voice) ≠ ["Brian"] := by
  decide

/-- C1 (counterexample): with an initialised store already holding the same
audio bytes under a different phrase, a cache-missing `process` raises
`IntegrityError` (only `InterfaceError` is caught) and does not write the
output file — against the claim that every store failure is swallowed and
the file still written. -/
theorem claim1_counterexample :
    ((Sound.init "hello" none).process
        (some [{ engine := "standard", language := "en-GB", voice := "Amy",
                 service := "Polly", phrase := "other", data := [1, 2] }])
        (fun _ => [1, 2]) "out").result = .error .integrityError
      ∧ ((Sound.init "hello" none).process
          (some [{ engine := "standard", language := "en-GB", voice := "Amy",
                   service := "Polly", phrase := "other", data := [1, 2] }])
          (fun _ => [1, 2]) "out").writes = []
      ∧ ((Sound.init "hello" none).process
          (some [{ engine := "standard", language := "en-GB", voice := "Amy",
                   service := "Polly", phrase := "other", data := [1, 2] }])
          (fun _ => [1, 2]) "out").warnings = [] := by
  decide

/-- C1 (amended): with no backing store, the store failure
(`InterfaceError`) is logged at warning level and swallowed — `process`
succeeds, uses the freshly rendered bytes and writes the output file.  A
uniqueness violation on the audio bytes (`IntegrityError`), however, is not
caught: `process` raises it, logs no warning and writes no file. -/
theorem claim1_amended :
    (∀ (s : Sound) (synth : SynthCall → Bytes) (file : String),
        (s.process none synth file).result = .ok (ensure_wav file)
          ∧ (s.process none synth file).warnings
              = ["Unable to cache audio data"]
          ∧ (s.process none synth file).writes
              = [(ensure_wav file,
                  synth { phrase := s.phrase, voice := "Amy",
                          language := "en-GB", engine := "standard" })])
      ∧ (∀ (s : Sound) (rows : List CacheEntry) (synth : SynthCall → Bytes)
          (file : String),
          s.cacheLookup (some rows) = .error .doesNotExist →
          (rows.any (fun x => x.data == synth
              { phrase := s.phrase, voice := "Amy", language := "en-GB",
                engine := "standard" })) = true →
          (s.process (some rows) synth file).result = .error .integrityError
            ∧ (s.process (some rows) synth file).writes = []
            ∧ (s.process (some rows) synth file).warnings = []
            ∧ (s.process (some rows) synth file).db = some rows) := by
  constructor
  · exact fun s synth file => ⟨rfl, rfl, rfl⟩
  · intro s rows synth file hmiss hdup
    have hc : s.check_cache (some rows) = (false, s) := by
      simp [Sound.check_cache, hmiss]
    refine ⟨?_, ?_, ?_, ?_⟩ <;>
      simp [Sound.process, hc, Sound.render, polly_process, CachedSound.create,
        Sound.cacheRow, hdup]

/-- Witness for C1: concrete duplicate-bytes store conflict raising out of
`process`. -/
theorem claim1_witness :
    ((Sound.init "hi" none).process
        (some [{ engine := "standard", language := "en-GB", voice := "Amy",
                 service := "Polly", phrase := "other", data := [3] }])
        (fun _ => [3]) "f").result = .error .integrityError
      ∧ ((Sound.init "hi" none).process
          (some [{ engine := "standard", language := "en-GB", voice := "Amy",
                   service := "Polly", phrase := "other", data := [3] }])
          (fun _ => [3]) "f").writes = []
      ∧ ((Sound.init "hi" none).process
          (some [{ engine := "standard", language := "en-GB", voice := "Amy",
                   service := "Polly", phrase := "other", data := [3] }])
          (fun _ => [3]) "f").warnings = []
      ∧ ((Sound.init "hi" none).process
          (some [{ engine := "standard", language := "en-GB", voice := "Amy",
                   service := "Polly", phrase := "other", data := [3] }])
          (fun _ => [3]) "f").db
        = some [{ engine := "standard", language := "en-GB", voice := "Amy",
                  service := "Polly", phrase := "other", data := [3] }] :=
  claim1_amended.2 (Sound.init "hi" none)
    [{ engine := "standard", language := "en-GB", voice := "Amy",
       service := "Polly", phrase := "other", data := [3] }]
    (fun _ => [3]) "f" (by decide) (by decide)

/-- C7 (counterexample): a target path ending in a newline refutes the
claimed "append `.wav` iff the string does not already end in `.wav`"
normalization — the Python `$` anchor also matches before the trailing newline, so
`.wav` is inserted twice. -/
theorem claim7_counterexample :
    endsWithL "output\n" ".wav" = false
      ∧ ((Sound.init "x" none).process none (fun _ => [0]) "output\n").result
          = .ok "output.wav\n.wav"
      ∧ "output.wav\n.wav" ≠ "output\n" ++ ".wav" := by
  decide

/-- C7 (amended): for a plain string target path that does not end with a
newline, `process` appends `.wav` iff the path does not already end in
`.wav` (case-sensitive), and scenario 3 holds: processing `"output"` writes
to and returns `"output.wav"`, and processing `"output.wav"` returns it
unchanged. -/
theorem claim7_amended :
    (∀ file : String, endsWithL file "\n" = false →
        ensure_wav file
          = if endsWithL file ".wav" then file else file ++ ".wav")
      ∧ (∀ (s : Sound) (synth : SynthCall → Bytes),
          ((s.process none synth "output").result = .ok "output.wav"
            ∧ ((s.process none synth "output").writes).map Prod.fst
                = ["output.wav"])
          ∧ ((s.process none synth "output.wav").result = .ok "output.wav"
            ∧ ((s.process none synth "output.wav").writes).map Prod.fst
                = ["output.wav"])) := by
  constructor
  · intro file h
    simp [ensure_wav, h]
  · exact fun s synth => ⟨⟨rfl, rfl⟩, rfl, rfl⟩

/-- Witness for C7: the amended normalization applied at `"output"`. -/
theorem claim7_witness :
    ensure_wav "output"
      = if endsWithL "output" ".wav" then "output" else "output" ++ ".wav" :=
  claim7_amended.1 "output" (by decide)

/-- Setting a fresh key appends the entry at the end. -/
theorem dictSet_fresh {α : Type} (d : List (String × α)) (k : String) (v : α)
    (h : k ∉ d.map Prod.fst) : dictSet d k v = d ++ [(k, v)] := by
  induction d with
  | nil => rfl
  | cons hd tl ih =>
      simp only [List.map_cons, List.mem_cons] at h
      push_neg at h
      rw [show dictSet (hd :: tl) k v
          = if hd.1 = k then (k, v) :: tl else hd :: dictSet tl k v from rfl]
      rw [if_neg (Ne.symm h.1), ih h.2]
      rfl

/-- The bucket renaming applied by `_convert_list`: only the exact lowercase
key `"system"` is uppercased. -/
def renameBucket (g : String) : String :=
  if g = "system" then "SYSTEM" else g

/-- Generalised fold invariant for `Pack.convert_list`: when the renamed
input keys avoid the accumulator keys and each other, the fold appends one
bucket per input group, in order, with the renamed key. -/
theorem convert_list_keys_aux (config : Dict)
    (l : List (String × List (String × String))) :
    ∀ acc : List (String × List (String × Sound)),
    (acc.map Prod.fst ++ l.map (fun p => renameBucket p.1)).Nodup →
    ((l.foldl (fun output gc =>
        let group := if gc.1 = "system" then pyUpper gc.1 else gc.1
        let content_list := gc.2.foldl (fun cl np =>
          dictSet cl (format_filename np.1 6) (Sound.init np.2 (some config))) []
        dictSet output group content_list) acc).map Prod.fst)
      = acc.map Prod.fst ++ l.map (fun p => renameBucket p.1) := by
  induction l with
  | nil =>
      intro acc h
      simp
  | cons hd tl ih =>
      intro acc h
      have hren : (if hd.1 = "system" then pyUpper hd.1 else hd.1)
          = renameBucket hd.1 := by
        unfold renameBucket
        by_cases hs : hd.1 = "system"
        · rw [if_pos hs, if_pos hs, hs]
          decide
        · rw [if_neg hs, if_neg hs]
      have hnd := h
      rw [List.map_cons, List.nodup_append] at hnd
      have hg : renameBucket hd.1 ∉ acc.map Prod.fst := by
        intro hmem
        exact hnd.2.2 hmem (List.mem_cons_self _ _)
      simp only [List.foldl_cons]
      rw [hren, dictSet_fresh acc (renameBucket hd.1) _ hg]
      have hnodup2 : ((acc ++ [(renameBucket hd.1, hd.2.foldl (fun cl np =>
          dictSet cl (format_filename np.1 6)
            (Sound.init np.2 (some config))) [])]).map Prod.fst
          ++ tl.map (fun p => renameBucket p.1)).Nodup := by
        rw [List.map_append]
        simp only [List.map_cons, List.map_nil]
        rw [List.append_assoc, List.singleton_append]
        simpa using h
      rw [ih _ hnodup2]
      rw [List.map_append]
      simp [List.append_assoc]

/-- C2 (counterexample): the bucket key `"System"` (capital S) is not
renamed — the assembled pack exposes `"System"`, not `"SYSTEM"`, against the
claim that any letter case of the word is renamed. -/
theorem claim2_counterexample :
    (Pack.init none [("System", [("a", "hello")])]).list.map Prod.fst
        = ["System"]
      ∧ (Pack.init none [("System", [("a", "hello")])]).list.map Prod.fst
        ≠ ["SYSTEM"] := by
  decide

/-- C2 (amended): only a bucket whose key is exactly the lowercase string
`"system"` is renamed (to `"SYSTEM"`); every other bucket key — including
other casings of the word — passes through unchanged.  Stated for inputs
whose renamed keys are distinct, as they are for any Python dict input that
does not collide on the renaming. -/
theorem claim2_amended (conf : Option Dict)
    (sounds : List (String × List (String × String)))
    (h : (sounds.map (fun p => renameBucket p.1)).Nodup) :
    (Pack.init conf sounds).list.map Prod.fst
      = sounds.map (fun p => renameBucket p.1) := by
  have haux := convert_list_keys_aux (merge_config conf) sounds [] (by simpa using h)
  show (Pack.convert_list (merge_config conf) sounds).map Prod.fst = _
  unfold Pack.convert_list
  simpa using haux

/-- Witness for C2: lowercase `"system"` becomes `"SYSTEM"` while `"extra"`
passes through. -/
theorem claim2_witness :
    (Pack.init none
        [("system", [("a", "hello")]), ("extra", [("b", "bye")])]).list.map
      Prod.fst = ["SYSTEM", "extra"] := by
  rw [claim2_amended none [("system", [("a", "hello")]), ("extra", [("b", "bye")])]
    (by decide)]
  decide

/-- Sanitized characters are never the path separator. -/
theorem allowed_ne_slash (c : Char) (h : allowedChar c = true) : c ≠ '/' := by
  intro he
  subst he
  simp [allowedChar] at h

/-- A `-.*` match with no newline ahead consumes the whole remainder. -/
theorem stripRegionGo_skip_nil (l : List Char) (h : ('\n') ∉ l) :
    stripRegionGo true l = [] := by
  induction l with
  | nil => rfl
  | cons c rest ih =>
      have hc : c ≠ '\n' := fun he => h (he ▸ List.mem_cons_self _ _)
      have hrest : ('\n') ∉ rest := fun hm => h (List.mem_cons_of_mem _ hm)
      simp [stripRegionGo, hc, ih hrest]

/-- On newline-free input the localisation strip keeps exactly the prefix
before the first hyphen. -/
theorem stripRegionAux_no_newline (l : List Char) (h : ('\n') ∉ l) :
    stripRegionAux l = l.takeWhile (fun c => c ≠ '-') := by
  unfold stripRegionAux
  induction l with
  | nil => rfl
  | cons c rest ih =>
      have hrest : ('\n') ∉ rest := fun hm => h (List.mem_cons_of_mem _ hm)
      by_cases hc : c = '-'
      · subst hc
        simp [stripRegionGo, stripRegionGo_skip_nil rest hrest, List.takeWhile]
      · simp [stripRegionGo, hc, ih hrest, List.takeWhile]

theorem strip_language_no_newline (language : String)
    (h : ('\n') ∉ language.toList) :
    strip_language language
      = String.mk (language.toList.takeWhile (fun c => c ≠ '-')) :=
  congrArg String.mk (stripRegionAux_no_newline _ h)

theorem startsWithL_mk_false_head (B : List Char) (hB : B.head? ≠ some '/') :
    startsWithL (String.mk B) "/" = false := by
  show List.isPrefixOf ['/'] B = false
  cases B with
  | nil => rfl
  | cons x xs =>
      have hx : ('/' == x) = false := by
        apply beq_eq_false_iff_ne.mpr
        intro he
        exact hB (by rw [List.head?_cons, ← he])
      simp [List.isPrefixOf, hx]

theorem startsWithL_mk_false (B : List Char) (hB : ∀ c ∈ B, c ≠ '/') :
    startsWithL (String.mk B) "/" = false := by
  apply startsWithL_mk_false_head
  cases B with
  | nil => simp
  | cons x xs =>
      rw [List.head?_cons]
      intro he
      exact hB x (List.mem_cons_self _ _) (Option.some.inj he)

theorem endsWithL_append_false (a b : String) (hb : b.toList ≠ [])
    (hall : ∀ c ∈ b.toList, c ≠ '/') : endsWithL (a ++ b) "/" = false := by
  show List.isSuffixOf ['/'] (a.data ++ b.data) = false
  unfold List.isSuffixOf
  rw [List.reverse_append]
  cases hr : b.data.reverse with
  | nil => exact absurd (List.reverse_eq_nil_iff.mp hr) hb
  | cons x xs =>
      have hx : x ∈ b.data := List.mem_reverse.mp (hr ▸ List.mem_cons_self x xs)
      have hne : ('/' == x) = false :=
        beq_eq_false_iff_ne.mpr (Ne.symm (hall x hx))
      simp [List.isPrefixOf, hne]

theorem string_append_ne_empty (a b : String) (ha : a ≠ "") : a ++ b ≠ "" := by
  intro h
  have hd := congrArg String.data h
  rw [String.data_append] at hd
  rcases List.append_eq_nil.mp hd with ⟨h1, _⟩
  exact ha (String.ext (by rw [h1]))

/-- `os.path.join(a, b)` inserts one separator in the standard case. -/
theorem posix_join2_std (a b : String) (hb : startsWithL b "/" = false)
    (ha1 : a ≠ "") (ha2 : endsWithL a "/" = false) :
    posix_join2 a b = a ++ "/" ++ b := by
  unfold posix_join2
  rw [if_neg (by simp [hb]), if_neg (by simp [ha1, ha2])]

theorem string_glue_paths (p X : String) :
    ((p ++ "/" ++ "SOUNDS") ++ "/" ++ "language") ++ "/" ++ X
      = p ++ "/SOUNDS/language/" ++ X := by
  apply String.ext
  simp

/-- C8 (counterexample): the original claim quantifies over every
configuration, but it fails on the code in three configuration corners.
With `name = "!!!"` the name sanitizes to the empty string, `os.path.join`
of the `/`-terminated root collapses the separator and the packpath is
`voicepacks/SOUNDS/language/en`, not the claimed root plus
`/SOUNDS/language/en`.  With `language = "/abs"` the absolute component
resets the join, so the packpath is `/abs` and not under the root at all.
With a newline inside the language, `re.sub(r"(?:-.*)", "")` strips per
line, so the result is not the code truncated at its first hyphen. -/
theorem claim8_counterexample :
    ((Pack.init (some [("name", "!!!")]) []).path = "voicepacks/"
      ∧ (Pack.init (some [("name", "!!!")]) []).packpath
          = "voicepacks/SOUNDS/language/en"
      ∧ (Pack.init (some [("name", "!!!")]) []).packpath
          ≠ "voicepacks/" ++ "/SOUNDS/language/" ++ "en")
    ∧ ((Pack.init (some [("language", "/abs")]) []).packpath = "/abs"
      ∧ (Pack.init (some [("language", "/abs")]) []).packpath
          ≠ (Pack.init (some [("language", "/abs")]) []).path
              ++ "/SOUNDS/language/" ++ "/abs")
    ∧ ((Pack.init (some [("language", "a-b\nc-d")]) []).packpath
          = "voicepacks/default/SOUNDS/language/a\nc"
      ∧ (Pack.init (some [("language", "a-b\nc-d")]) []).packpath
          ≠ (Pack.init (some [("language", "a-b\nc-d")]) []).path
              ++ "/SOUNDS/language/" ++ "a") := by
  decide

/-- C8 (amended): for every configuration whose sanitized pack name is
nonempty and whose language code is newline-free and does not start with
`/`, the pack root path is `voicepacks/` followed by the sanitized
(length 32) name, and the language path is the root followed by
`/SOUNDS/language/` and the language code truncated at its first hyphen.
The three provisos exclude exactly the configurations of the
counterexample, where `os.path.join` collapses or resets the path or the
per-line regex strip diverges from hyphen truncation. -/
theorem claim8_paths (conf : Option Dict)
    (sounds : List (String × List (String × String)))
    (hname : format_filename (cfgGet (merge_config conf) "name") 32 ≠ "")
    (hnl : ('\n') ∉ (cfgGet (merge_config conf) "language").toList)
    (hsl : startsWithL (cfgGet (merge_config conf) "language") "/" = false) :
    (Pack.init conf sounds).path
        = "voicepacks/" ++ format_filename (cfgGet (merge_config conf) "name") 32
      ∧ (Pack.init conf sounds).packpath
        = (Pack.init conf sounds).path ++ "/SOUNDS/language/"
            ++ String.mk ((cfgGet (merge_config conf) "language").toList.takeWhile
                (fun c => c ≠ '-')) := by
  have hall : ∀ c ∈ (format_filename (cfgGet (merge_config conf) "name") 32).toList,
      c ≠ '/' :=
    fun c hc => allowed_ne_slash c (mem_format_filename_allowed _ _ c hc)
  have hBne : (((cfgGet (merge_config conf) "name").toList.map
      Char.toLower).filter allowedChar).take 32 ≠ [] := by
    intro hBnil
    exact hname (by
      show String.mk ((((cfgGet (merge_config conf) "name").toList.map
        Char.toLower).filter allowedChar).take 32) = ""
      rw [hBnil])
  have hstart : startsWithL
      (format_filename (cfgGet (merge_config conf) "name") 32) "/" = false :=
    startsWithL_mk_false _ hall
  have hpath : (Pack.init conf sounds).path
      = "voicepacks/" ++ format_filename (cfgGet (merge_config conf) "name") 32 := by
    show posix_join2 "voicepacks"
        (format_filename (cfgGet (merge_config conf) "name") 32) = _
    rw [posix_join2_std _ _ hstart (by decide) (by decide)]
    rw [show ("voicepacks" ++ "/" : String) = "voicepacks/" from by decide]
  refine ⟨hpath, ?_⟩
  have hpne : (Pack.init conf sounds).path ≠ "" := by
    rw [hpath]
    exact string_append_ne_empty _ _ (by decide)
  have hpslash : endsWithL (Pack.init conf sounds).path "/" = false := by
    rw [hpath]
    exact endsWithL_append_false "voicepacks/"
      (format_filename (cfgGet (merge_config conf) "name") 32) hBne hall
  have hs1 : posix_join2 (Pack.init conf sounds).path "SOUNDS"
      = (Pack.init conf sounds).path ++ "/" ++ "SOUNDS" :=
    posix_join2_std _ _ (by decide) hpne hpslash
  have hs2 : posix_join2 ((Pack.init conf sounds).path ++ "/" ++ "SOUNDS")
      "language" = (Pack.init conf sounds).path ++ "/" ++ "SOUNDS"
        ++ "/" ++ "language" :=
    posix_join2_std _ _ (by decide)
      (string_append_ne_empty ((Pack.init conf sounds).path ++ "/") "SOUNDS"
        (string_append_ne_empty (Pack.init conf sounds).path "/" hpne))
      (endsWithL_append_false ((Pack.init conf sounds).path ++ "/")
        "SOUNDS" (by decide) (by decide))
  have hlangstart : startsWithL (strip_language
      (cfgGet (merge_config conf) "language")) "/" = false := by
    rw [strip_language_no_newline _ hnl]
    apply startsWithL_mk_false_head
    rcases hl : (cfgGet (merge_config conf) "language").toList with _ | ⟨x, xs⟩
    · simp
    · by_cases hx : x = '-'
      · subst hx
        rw [List.takeWhile_cons_of_neg (by simp)]
        simp
      · rw [List.takeWhile_cons_of_pos (by simpa using hx)]
        rw [List.head?_cons]
        intro he
        have hxs : x = '/' := Option.some.inj he
        subst hxs
        rw [show startsWithL (cfgGet (merge_config conf) "language") "/"
            = List.isPrefixOf ['/'] (cfgGet (merge_config conf) "language").toList
          from rfl, hl] at hsl
        simp [List.isPrefixOf] at hsl
  have hs3 : posix_join2 ((Pack.init conf sounds).path ++ "/" ++ "SOUNDS"
      ++ "/" ++ "language") (strip_language (cfgGet (merge_config conf) "language"))
      = (Pack.init conf sounds).path ++ "/" ++ "SOUNDS" ++ "/" ++ "language"
        ++ "/" ++ strip_language (cfgGet (merge_config conf) "language") :=
    posix_join2_std _ _ hlangstart
      (string_append_ne_empty ((Pack.init conf sounds).path ++ "/" ++ "SOUNDS"
          ++ "/") "language"
        (string_append_ne_empty ((Pack.init conf sounds).path ++ "/" ++ "SOUNDS")
          "/"
          (string_append_ne_empty ((Pack.init conf sounds).path ++ "/") "SOUNDS"
            (string_append_ne_empty (Pack.init conf sounds).path "/" hpne))))
      (endsWithL_append_false ((Pack.init conf sounds).path ++ "/" ++ "SOUNDS"
        ++ "/") "language" (by decide) (by decide))
  show posix_join2 (posix_join2 (posix_join2 (Pack.init conf sounds).path
      "SOUNDS") "language")
      (strip_language (cfgGet (merge_config conf) "language")) = _
  rw [hs1, hs2, hs3, strip_language_no_newline _ hnl]
  exact string_glue_paths _ _

/-- Witness for C8: under the default configuration the root path is
`voicepacks/default` and the language path ends in `en`. -/
theorem claim8_witness :
    (Pack.init none []).path = "voicepacks/default"
      ∧ (Pack.init none []).packpath = "voicepacks/default/SOUNDS/language/en" := by
  obtain ⟨h1, h2⟩ := claim8_paths none [] (by decide) (by decide) (by decide)
  constructor
  · rw [h1]
    decide
  · rw [h2, h1]
    decide

end Txsoundgen
